import Mathlib

/-
Verification of the cloud-capsule time-capsule service.

Shallow embedding of the capsule lifecycle engine:
  - services/encryption_service.py : AES-256-CBC encryption with PKCS7
    padding and base64 transport.  The AES block permutation itself is
    library code (PyCryptodome), modelled as an abstract `BlockCipher`
    parameter; CBC chaining, PKCS7 padding and base64 are modelled
    concretely.  Bytes are `Nat` values below 256, byte strings `List Nat`.
  - services/capsule_service.py : creation, unlock, update, deletion of
    capsule records.  MongoDB documents become a `CapsuleDoc` structure,
    the collection a `List CapsuleDoc`; `datetime.utcnow()` becomes a
    logical clock `now : Nat` that ticks on every call.  Cloudinary and
    GridFS blob stores become finite maps; the Cloudinary upload call
    (a network operation of the cloudinary library) is an abstract
    `PutFn` parameter.
  - services/scheduler_service.py : the sweep, in-app notification
    creation and the force-unlock path.
  - routes/capsule_routes.py : the validation/gate fragments of the
    create and unlock HTTP handlers that the claims refer to.
-/

/-! ## Base64 (Python `base64.b64encode` / `b64decode` on byte strings) -/

/-- Standard base64 alphabet: sextet value to ASCII code. -/
def enc64 (n : Nat) : Nat :=
  if n < 26 then 65 + n
  else if n < 52 then 97 + (n - 26)
  else if n < 62 then 48 + (n - 52)
  else if n = 62 then 43
  else 47

/-- Inverse of `enc64` on the base64 alphabet. -/
def dec64 (c : Nat) : Nat :=
  if 65 ≤ c ∧ c ≤ 90 then c - 65
  else if 97 ≤ c ∧ c ≤ 122 then c - 71
  else if 48 ≤ c ∧ c ≤ 57 then c + 4
  else if c = 43 then 62
  else if c = 47 then 63
  else 0

/-- Base64-encode a byte string; 61 is the ASCII code of the padding
character. -/
def b64encode : List Nat → List Nat
  | a :: b :: c :: rest =>
    enc64 (a / 4) :: enc64 (a % 4 * 16 + b / 16) :: enc64 (b % 16 * 4 + c / 64) ::
      enc64 (c % 64) :: b64encode rest
  | [a, b] => [enc64 (a / 4), enc64 (a % 4 * 16 + b / 16), enc64 (b % 16 * 4), 61]
  | [a] => [enc64 (a / 4), enc64 (a % 4 * 16), 61, 61]
  | [] => []

/-- Base64-decode an ASCII string produced by `b64encode`. -/
def b64decode : List Nat → List Nat
  | c1 :: c2 :: c3 :: c4 :: rest =>
    if c3 = 61 then [dec64 c1 * 4 + dec64 c2 / 16]
    else if c4 = 61 then [dec64 c1 * 4 + dec64 c2 / 16, dec64 c2 % 16 * 16 + dec64 c3 / 4]
    else (dec64 c1 * 4 + dec64 c2 / 16) :: (dec64 c2 % 16 * 16 + dec64 c3 / 4) ::
      (dec64 c3 % 4 * 64 + dec64 c4) :: b64decode rest
  | _ => []

theorem dec64_enc64 : ∀ n, n < 64 → dec64 (enc64 n) = n := by decide

theorem enc64_ne_61 : ∀ n, n < 64 → enc64 n ≠ 61 := by decide

theorem b64decode_b64encode (l : List Nat) (h : ∀ x ∈ l, x < 256) :
    b64decode (b64encode l) = l := by
  induction l using b64encode.induct with
  | case1 a b c rest ih =>
    have ha : a < 256 := h a (by simp)
    have hb : b < 256 := h b (by simp)
    have hc : c < 256 := h c (by simp)
    rw [b64encode, b64decode,
      if_neg (enc64_ne_61 _ (by omega)), if_neg (enc64_ne_61 _ (by omega)),
      dec64_enc64 _ (by omega), dec64_enc64 _ (by omega),
      dec64_enc64 _ (by omega), dec64_enc64 _ (by omega),
      ih (fun x hx => h x (by simp [hx]))]
    simp only [List.cons.injEq]
    refine ⟨by omega, by omega, by omega, trivial⟩
  | case2 a b =>
    have ha : a < 256 := h a (by simp)
    have hb : b < 256 := h b (by simp)
    rw [b64encode, b64decode, if_neg (enc64_ne_61 _ (by omega)), if_pos rfl,
      dec64_enc64 _ (by omega), dec64_enc64 _ (by omega), dec64_enc64 _ (by omega)]
    simp only [List.cons.injEq]
    refine ⟨by omega, by omega, trivial⟩
  | case3 a =>
    have ha : a < 256 := h a (by simp)
    rw [b64encode, b64decode, if_pos rfl, dec64_enc64 _ (by omega), dec64_enc64 _ (by omega)]
    simp only [List.cons.injEq]
    exact ⟨by omega, trivial⟩
  | case4 => rfl

/-! ## PKCS7 padding (`Crypto.Util.Padding.pad` / `unpad`, block size 16) -/

/-- PKCS7 padding: append `n` copies of `n` where `n = 16 - len % 16`. -/
def pad (data : List Nat) : List Nat :=
  let n := 16 - data.length % 16
  data ++ List.replicate n n

/-- PKCS7 unpadding with the exact checks of PyCryptodome `unpad`:
zero-length input, length not a multiple of the block size, padding
byte out of range, and padding bytes that do not all match are errors. -/
def unpad (data : List Nat) : Except String (List Nat) :=
  if data.length = 0 then .error "Zero-length input cannot be unpadded"
  else if data.length % 16 ≠ 0 then .error "Input data is not padded"
  else
    let n := data.getLastD 0
    if n < 1 ∨ n > min 16 data.length then .error "Padding is incorrect."
    else if data.drop (data.length - n) ≠ List.replicate n n then
      .error "PKCS#7 padding is incorrect."
    else .ok (data.take (data.length - n))

theorem length_pad_mod (data : List Nat) : (pad data).length % 16 = 0 := by
  simp only [pad, List.length_append, List.length_replicate]
  omega

theorem unpad_pad (data : List Nat) : unpad (pad data) = .ok data := by
  have hlen : (pad data).length % 16 = 0 := length_pad_mod data
  have hn : 1 ≤ 16 - data.length % 16 ∧ 16 - data.length % 16 ≤ 16 := by omega
  have hrep : List.replicate (16 - data.length % 16) (16 - data.length % 16) ≠ ([] : List Nat) := by
    simp only [ne_eq, List.replicate_eq_nil_iff]
    omega
  have hlast0 : (pad data).getLast? = some (16 - data.length % 16) := by
    rw [pad]
    rw [List.getLast?_append_of_ne_nil _ hrep]
    rw [List.getLast?_replicate, if_neg (by omega)]
  have hlast : (pad data).getLastD 0 = 16 - data.length % 16 := by
    rw [List.getLastD_eq_getLast?, hlast0]
    rfl
  have hplen : (pad data).length = data.length + (16 - data.length % 16) := by
    simp [pad]
  rw [unpad]
  simp only [hlast]
  rw [if_neg (by omega), if_neg (by simp [hlen]), if_neg (by omega)]
  have hdrop : (pad data).drop ((pad data).length - (16 - data.length % 16)) =
      List.replicate (16 - data.length % 16) (16 - data.length % 16) := by
    rw [hplen, Nat.add_sub_cancel, pad]
    exact List.drop_left data _
  rw [if_neg (by simp [hdrop])]
  rw [hplen, Nat.add_sub_cancel, pad]
  congr 1
  exact List.take_left data _

theorem pad_bytes_lt (data : List Nat) (h : ∀ x ∈ data, x < 256) :
    ∀ x ∈ pad data, x < 256 := by
  intro x hx
  rw [pad, List.mem_append] at hx
  rcases hx with hx | hx
  · exact h x hx
  · have := List.eq_of_mem_replicate hx
    omega

/-! ## CBC mode over an abstract 16-byte block cipher

The source delegates the AES-256 block permutation to PyCryptodome
(`AES.new(key, AES.MODE_CBC, iv)`); the block cipher is therefore a
parameter of the embedding.  CBC chaining is modelled concretely. -/

/-- Bytewise xor of two byte strings (CBC chaining step). -/
def xorBytes (a b : List Nat) : List Nat :=
  List.zipWith (fun x y => x ^^^ y) a b

/-- Abstract one-block (16-byte) cipher, standing for the AES-256
permutation under the fixed process-wide key. -/
structure BlockCipher where
  enc : List Nat → List Nat
  dec : List Nat → List Nat

/-- The properties of a real block cipher the proofs rely on: on 16-byte
blocks of bytes it preserves length and byte range and decrypts what it
encrypts. -/
def GoodBlockCipher (bc : BlockCipher) : Prop :=
  ∀ b : List Nat, b.length = 16 → (∀ x ∈ b, x < 256) →
    (bc.enc b).length = 16 ∧ (∀ x ∈ bc.enc b, x < 256) ∧ bc.dec (bc.enc b) = b

/-- Split a byte string into 16-byte blocks (any ragged tail is dropped;
callers guard on the length being a multiple of 16). -/
def toBlocks : List Nat → List (List Nat)
  | a1 :: a2 :: a3 :: a4 :: a5 :: a6 :: a7 :: a8 :: a9 :: a10 :: a11 :: a12 :: a13 :: a14 :: a15 :: a16 :: rest =>
    [a1, a2, a3, a4, a5, a6, a7, a8, a9, a10, a11, a12, a13, a14, a15, a16] :: toBlocks rest
  | _ => []

/-- CBC encryption over a block list: each block is xored with the
previous ciphertext block (initially the IV) before the block cipher. -/
def cbcEncBlocks (bc : BlockCipher) (prev : List Nat) : List (List Nat) → List (List Nat)
  | [] => []
  | b :: bs =>
    let c := bc.enc (xorBytes b prev)
    c :: cbcEncBlocks bc c bs

/-- CBC decryption over a block list. -/
def cbcDecBlocks (bc : BlockCipher) (prev : List Nat) : List (List Nat) → List (List Nat)
  | [] => []
  | c :: cs => xorBytes (bc.dec c) prev :: cbcDecBlocks bc c cs

/-- CBC-encrypt a byte string whose length is a multiple of 16. -/
def cbcEncrypt (bc : BlockCipher) (iv data : List Nat) : List Nat :=
  (cbcEncBlocks bc iv (toBlocks data)).flatten

/-- CBC-decrypt; PyCryptodome rejects ciphertext that is not a multiple
of the block size. -/
def cbcDecrypt (bc : BlockCipher) (iv ct : List Nat) : Except String (List Nat) :=
  if ct.length % 16 = 0 then .ok ((cbcDecBlocks bc iv (toBlocks ct)).flatten)
  else .error "Data must be padded to 16 byte boundary in CBC mode"

theorem toBlocks_mem_length : ∀ (l : List Nat), ∀ b ∈ toBlocks l, b.length = 16 := by
  intro l
  induction l using toBlocks.induct with
  | case1 a1 a2 a3 a4 a5 a6 a7 a8 a9 a10 a11 a12 a13 a14 a15 a16 rest ih =>
    intro b hb
    rw [toBlocks] at hb
    rcases List.mem_cons.mp hb with h | h
    · simp [h]
    · exact ih b h
  | case2 l h =>
    intro b hb
    rw [toBlocks] at hb
    · simp at hb
    · exact h

theorem toBlocks_mem_bound : ∀ (l : List Nat), (∀ x ∈ l, x < 256) →
    ∀ b ∈ toBlocks l, ∀ x ∈ b, x < 256 := by
  intro l
  induction l using toBlocks.induct with
  | case1 a1 a2 a3 a4 a5 a6 a7 a8 a9 a10 a11 a12 a13 a14 a15 a16 rest ih =>
    intro hl b hb
    rw [toBlocks] at hb
    rcases List.mem_cons.mp hb with h | h
    · intro x hx
      subst h
      exact hl x (by simp at hx ⊢; tauto)
    · exact ih (fun x hx => hl x (by simp [hx])) b h
  | case2 l h =>
    intro hl b hb
    rw [toBlocks] at hb
    · simp at hb
    · exact h

theorem exists_cons_of_le_length : ∀ (t : List Nat), 1 ≤ t.length → ∃ a t2, t = a :: t2
  | [], h => by simp at h
  | a :: t, _ => ⟨a, t, rfl⟩

theorem cons16_of_length (t : List Nat) (h : 16 ≤ t.length) :
    ∃ a1 a2 a3 a4 a5 a6 a7 a8 a9 a10 a11 a12 a13 a14 a15 a16 rest,
      t = a1 :: a2 :: a3 :: a4 :: a5 :: a6 :: a7 :: a8 :: a9 :: a10 :: a11 :: a12 :: a13 :: a14 :: a15 :: a16 :: rest := by
  obtain ⟨a1, t, rfl⟩ := exists_cons_of_le_length t (by omega)
  simp only [List.length_cons] at h
  obtain ⟨a2, t, rfl⟩ := exists_cons_of_le_length t (by omega)
  simp only [List.length_cons] at h
  obtain ⟨a3, t, rfl⟩ := exists_cons_of_le_length t (by omega)
  simp only [List.length_cons] at h
  obtain ⟨a4, t, rfl⟩ := exists_cons_of_le_length t (by omega)
  simp only [List.length_cons] at h
  obtain ⟨a5, t, rfl⟩ := exists_cons_of_le_length t (by omega)
  simp only [List.length_cons] at h
  obtain ⟨a6, t, rfl⟩ := exists_cons_of_le_length t (by omega)
  simp only [List.length_cons] at h
  obtain ⟨a7, t, rfl⟩ := exists_cons_of_le_length t (by omega)
  simp only [List.length_cons] at h
  obtain ⟨a8, t, rfl⟩ := exists_cons_of_le_length t (by omega)
  simp only [List.length_cons] at h
  obtain ⟨a9, t, rfl⟩ := exists_cons_of_le_length t (by omega)
  simp only [List.length_cons] at h
  obtain ⟨a10, t, rfl⟩ := exists_cons_of_le_length t (by omega)
  simp only [List.length_cons] at h
  obtain ⟨a11, t, rfl⟩ := exists_cons_of_le_length t (by omega)
  simp only [List.length_cons] at h
  obtain ⟨a12, t, rfl⟩ := exists_cons_of_le_length t (by omega)
  simp only [List.length_cons] at h
  obtain ⟨a13, t, rfl⟩ := exists_cons_of_le_length t (by omega)
  simp only [List.length_cons] at h
  obtain ⟨a14, t, rfl⟩ := exists_cons_of_le_length t (by omega)
  simp only [List.length_cons] at h
  obtain ⟨a15, t, rfl⟩ := exists_cons_of_le_length t (by omega)
  simp only [List.length_cons] at h
  obtain ⟨a16, t, rfl⟩ := exists_cons_of_le_length t (by omega)
  exact ⟨a1, a2, a3, a4, a5, a6, a7, a8, a9, a10, a11, a12, a13, a14, a15, a16, t, rfl⟩

theorem flatten_toBlocks : ∀ (l : List Nat), l.length % 16 = 0 →
    (toBlocks l).flatten = l := by
  intro l
  induction l using toBlocks.induct with
  | case1 a1 a2 a3 a4 a5 a6 a7 a8 a9 a10 a11 a12 a13 a14 a15 a16 rest ih =>
    intro hlen
    rw [toBlocks, List.flatten_cons, ih (by simp at hlen; omega)]
    rfl
  | case2 l h =>
    intro hlen
    have hlt : l.length < 16 := by
      by_contra hge
      push_neg at hge
      obtain ⟨a1, a2, a3, a4, a5, a6, a7, a8, a9, a10, a11, a12, a13, a14, a15, a16, rest, rfl⟩ :=
        cons16_of_length l hge
      exact h a1 a2 a3 a4 a5 a6 a7 a8 a9 a10 a11 a12 a13 a14 a15 a16 rest rfl
    have hnil : l = [] := List.length_eq_zero.mp (by omega)
    subst hnil
    rfl

theorem toBlocks_append16 (blk rest : List Nat) (h : blk.length = 16) :
    toBlocks (blk ++ rest) = blk :: toBlocks rest := by
  obtain ⟨a1, a2, a3, a4, a5, a6, a7, a8, a9, a10, a11, a12, a13, a14, a15, a16, t, rfl⟩ :=
    cons16_of_length blk (by omega)
  have ht : t = [] := by
    simp only [List.length_cons] at h
    exact List.length_eq_zero.mp (by omega)
  subst ht
  rfl

theorem toBlocks_flatten (bs : List (List Nat)) (h : ∀ b ∈ bs, b.length = 16) :
    toBlocks bs.flatten = bs := by
  induction bs with
  | nil => rfl
  | cons b bs ih =>
    rw [List.flatten_cons, toBlocks_append16 b bs.flatten (h b (by simp))]
    rw [ih (fun x hx => h x (by simp [hx]))]

theorem flatten_blocks_mod (bs : List (List Nat)) (h : ∀ b ∈ bs, b.length = 16) :
    bs.flatten.length % 16 = 0 := by
  induction bs with
  | nil => rfl
  | cons b bs ih =>
    rw [List.flatten_cons, List.length_append, h b (by simp)]
    have := ih (fun x hx => h x (by simp [hx]))
    omega

theorem flatten_blocks_bound (bs : List (List Nat)) (h : ∀ b ∈ bs, ∀ x ∈ b, x < 256) :
    ∀ x ∈ bs.flatten, x < 256 := by
  intro x hx
  rw [List.mem_flatten] at hx
  obtain ⟨b, hb, hxb⟩ := hx
  exact h b hb x hxb

theorem xorBytes_cancel : ∀ (a v : List Nat), a.length = v.length →
    xorBytes (xorBytes a v) v = a
  | [], _, _ => rfl
  | _ :: _, [], h => by simp at h
  | a :: as, v :: vs, h => by
    simp only [xorBytes, List.zipWith_cons_cons, List.cons.injEq]
    constructor
    · rw [Nat.xor_assoc, Nat.xor_self, Nat.xor_zero]
    · exact xorBytes_cancel as vs (by simpa using h)

theorem xorBytes_length (a v : List Nat) :
    (xorBytes a v).length = min a.length v.length := by
  simp [xorBytes]

theorem xorBytes_bound : ∀ (a v : List Nat), (∀ x ∈ a, x < 256) → (∀ x ∈ v, x < 256) →
    ∀ x ∈ xorBytes a v, x < 256
  | [], _, _, _ => by simp [xorBytes]
  | _ :: _, [], _, _ => by simp [xorBytes]
  | a :: as, v :: vs, ha, hv => by
    intro x hx
    simp only [xorBytes, List.zipWith_cons_cons, List.mem_cons] at hx
    rcases hx with hx | hx
    · subst hx
      have h1 : a < 2 ^ 8 := by have := ha a (by simp); omega
      have h2 : v < 2 ^ 8 := by have := hv v (by simp); omega
      have := Nat.xor_lt_two_pow h1 h2
      omega
    · exact xorBytes_bound as vs (fun y hy => ha y (by simp [hy]))
        (fun y hy => hv y (by simp [hy])) x hx

theorem cbcEncBlocks_good (bc : BlockCipher) (hbc : GoodBlockCipher bc) :
    ∀ (bs : List (List Nat)) (prev : List Nat), prev.length = 16 → (∀ x ∈ prev, x < 256) →
    (∀ b ∈ bs, b.length = 16 ∧ ∀ x ∈ b, x < 256) →
    ∀ cb ∈ cbcEncBlocks bc prev bs, cb.length = 16 ∧ ∀ x ∈ cb, x < 256 := by
  intro bs
  induction bs with
  | nil => intro prev _ _ _ cb hcb; simp [cbcEncBlocks] at hcb
  | cons b bs ih =>
    intro prev hp hpb hok cb hcb
    have hb := hok b (by simp)
    have hxlen : (xorBytes b prev).length = 16 := by
      rw [xorBytes_length, hb.1, hp]
      rfl
    have hxb : ∀ x ∈ xorBytes b prev, x < 256 := xorBytes_bound b prev hb.2 hpb
    have hc := hbc (xorBytes b prev) hxlen hxb
    simp only [cbcEncBlocks, List.mem_cons] at hcb
    rcases hcb with hcb | hcb
    · subst hcb
      exact ⟨hc.1, hc.2.1⟩
    · exact ih (bc.enc (xorBytes b prev)) hc.1 hc.2.1
        (fun x hx => hok x (by simp [hx])) cb hcb

theorem cbcDecBlocks_cbcEncBlocks (bc : BlockCipher) (hbc : GoodBlockCipher bc) :
    ∀ (bs : List (List Nat)) (prev : List Nat), prev.length = 16 → (∀ x ∈ prev, x < 256) →
    (∀ b ∈ bs, b.length = 16 ∧ ∀ x ∈ b, x < 256) →
    cbcDecBlocks bc prev (cbcEncBlocks bc prev bs) = bs := by
  intro bs
  induction bs with
  | nil => intro prev _ _ _; rfl
  | cons b bs ih =>
    intro prev hp hpb hok
    have hb := hok b (by simp)
    have hxlen : (xorBytes b prev).length = 16 := by
      rw [xorBytes_length, hb.1, hp]
      rfl
    have hxb : ∀ x ∈ xorBytes b prev, x < 256 := xorBytes_bound b prev hb.2 hpb
    have hc := hbc (xorBytes b prev) hxlen hxb
    simp only [cbcEncBlocks, cbcDecBlocks, List.cons.injEq]
    constructor
    · rw [hc.2.2]
      exact xorBytes_cancel b prev (by rw [hb.1, hp])
    · exact ih (bc.enc (xorBytes b prev)) hc.1 hc.2.1
        (fun x hx => hok x (by simp [hx]))

/-! ## EncryptionService (services/encryption_service.py)

The fresh random IV drawn by `get_random_bytes(16)` is externalized as
an explicit parameter; the base64 transport encoding of the source is
modelled concretely.  Error strings carry the prefixes the source wraps
around exceptions. -/

/-- Result dictionary of `EncryptionService.encrypt_data`: base64
ciphertext and base64 IV. -/
structure EncryptResult where
  encrypted_data : List Nat
  iv : List Nat
deriving Repr, DecidableEq

/-- Embedding of `EncryptionService.encrypt_data`: pad, CBC-encrypt with
a fresh IV, base64-encode both. -/
def encrypt_data (bc : BlockCipher) (iv : List Nat) (data : List Nat) : EncryptResult :=
  { encrypted_data := b64encode (cbcEncrypt bc iv (pad data)), iv := b64encode iv }

/-- Embedding of `EncryptionService.decrypt_data`: base64-decode both
arguments, CBC-decrypt, strip PKCS7 padding; every failure is surfaced
as an error (the source re-raises as `Exception("Decryption failed: ...")`). -/
def decrypt_data (bc : BlockCipher) (encrypted_data iv : List Nat) : Except String (List Nat) :=
  match cbcDecrypt bc (b64decode iv) (b64decode encrypted_data) with
  | .error e => .error ("Decryption failed: " ++ e)
  | .ok padded =>
    match unpad padded with
    | .error e => .error ("Decryption failed: " ++ e)
    | .ok d => .ok d

theorem pad_blocks_good (data : List Nat) (h : ∀ x ∈ data, x < 256) :
    ∀ b ∈ toBlocks (pad data), b.length = 16 ∧ ∀ x ∈ b, x < 256 :=
  fun b hb => ⟨toBlocks_mem_length (pad data) b hb,
    toBlocks_mem_bound (pad data) (pad_bytes_lt data h) b hb⟩

/-- C9 core: for every block cipher with the round-trip property, every
16-byte IV and every byte payload, decrypting the output of
`encrypt_data` returns the original payload. -/
theorem decrypt_encrypt (bc : BlockCipher) (hbc : GoodBlockCipher bc)
    (iv data : List Nat) (hivlen : iv.length = 16) (hivb : ∀ x ∈ iv, x < 256)
    (hdata : ∀ x ∈ data, x < 256) :
    decrypt_data bc (encrypt_data bc iv data).encrypted_data (encrypt_data bc iv data).iv =
      .ok data := by
  have hgood := pad_blocks_good data hdata
  have hctgood : ∀ cb ∈ cbcEncBlocks bc iv (toBlocks (pad data)), cb.length = 16 ∧ ∀ x ∈ cb, x < 256 :=
    cbcEncBlocks_good bc hbc (toBlocks (pad data)) iv hivlen hivb hgood
  have hctlen : ∀ cb ∈ cbcEncBlocks bc iv (toBlocks (pad data)), cb.length = 16 :=
    fun cb hcb => (hctgood cb hcb).1
  have hctb : ∀ x ∈ cbcEncrypt bc iv (pad data), x < 256 :=
    flatten_blocks_bound _ (fun b hb => (hctgood b hb).2)
  rw [decrypt_data, encrypt_data]
  simp only
  rw [b64decode_b64encode _ hctb, b64decode_b64encode _ hivb]
  rw [cbcDecrypt, if_pos (show (cbcEncrypt bc iv (pad data)).length % 16 = 0 from
    flatten_blocks_mod _ hctlen)]
  rw [cbcEncrypt, toBlocks_flatten _ hctlen]
  rw [cbcDecBlocks_cbcEncBlocks bc hbc _ iv hivlen hivb hgood]
  rw [flatten_toBlocks _ (length_pad_mod data)]
  simp only [unpad_pad]

/-! ## Concrete block cipher instance for witnesses and counterexamples

The failures exhibited below are structural properties of the CBC +
PKCS7 construction of `decrypt_data` and hold for every block cipher;
a simple concrete permutation (reversal of the 16-byte block) makes the
statements closed and computable. -/

/-- A concrete 16-byte block permutation (its own inverse). -/
def revCipher : BlockCipher :=
  { enc := List.reverse, dec := List.reverse }

theorem revCipher_good : GoodBlockCipher revCipher := by
  intro b hlen hb
  refine ⟨by simp [revCipher, hlen], ?_, by simp [revCipher]⟩
  intro x hx
  exact hb x (by simpa [revCipher] using hx)

deriving instance DecidableEq for Except

/-- Witness payload: 17 bytes whose 16th byte is 1, so that truncating
the ciphertext to one block leaves a block that ends in a valid
one-byte PKCS7 pad. -/
def tamperPayload : List Nat := List.replicate 15 0 ++ [1, 7]

/-- All-zero 16-byte IV used in concrete scenarios. -/
def zeroIV : List Nat := List.replicate 16 0

/-- C9.  Cipher round-trip: for every block cipher with the inverse
property (AES-256 under the fixed key in the source), every 16-byte IV
and every byte payload P, `decrypt(encrypt(P)) = P`, where `encrypt`
returns the ciphertext together with the fresh IV that `decrypt` is
given back. -/
theorem cipher_round_trip (bc : BlockCipher) (hbc : GoodBlockCipher bc)
    (iv data : List Nat) (hivlen : iv.length = 16) (hivb : ∀ x ∈ iv, x < 256)
    (hdata : ∀ x ∈ data, x < 256) :
    decrypt_data bc (encrypt_data bc iv data).encrypted_data (encrypt_data bc iv data).iv =
      .ok data :=
  decrypt_encrypt bc hbc iv data hivlen hivb hdata

/-- Witness for C9 at a concrete cipher, IV and payload. -/
theorem cipher_round_trip_witness :
    GoodBlockCipher revCipher ∧ zeroIV.length = 16 ∧ (∀ x ∈ zeroIV, x < 256) ∧
    (∀ x ∈ [72, 105, 33], x < 256) ∧
    decrypt_data revCipher (encrypt_data revCipher zeroIV [72, 105, 33]).encrypted_data
      (encrypt_data revCipher zeroIV [72, 105, 33]).iv = .ok [72, 105, 33] :=
  ⟨revCipher_good, by decide, by decide, by decide,
    cipher_round_trip revCipher revCipher_good zeroIV [72, 105, 33]
      (by decide) (by decide) (by decide)⟩

/-- C3 counterexample.  A ciphertext truncated to its first block
decrypts without error to bytes different from the encrypted payload:
CBC with PKCS7 padding and no authentication accepts any tampering that
leaves a well-formed pad, so `decrypt` does not reject every
tampered/truncated ciphertext. -/
theorem decrypt_truncated_silently_succeeds :
    decrypt_data revCipher
        (b64encode ((cbcEncrypt revCipher zeroIV (pad tamperPayload)).take 16))
        (b64encode zeroIV) = .ok (List.replicate 15 0) ∧
      (List.replicate 15 0 : List Nat) ≠ tamperPayload := by
  constructor
  · decide
  · decide

/-- First plaintext block of the tamper payload after padding. -/
def blockB1 : List Nat := [0, 0, 0, 0, 0, 0, 0, 0, 0, 0, 0, 0, 0, 0, 0, 1]

/-- Second plaintext block of the tamper payload after padding. -/
def blockB2 : List Nat := [7, 15, 15, 15, 15, 15, 15, 15, 15, 15, 15, 15, 15, 15, 15, 15]

/-- The C3 failure is not specific to the concrete cipher: for *every*
block cipher with the inverse property (hence for AES-256 under every
key) there is a payload whose ciphertext, truncated to its first block,
decrypts without error to different bytes. -/
theorem decrypt_forgery_exists (bc : BlockCipher) (hbc : GoodBlockCipher bc) :
    ∃ P iv q, (∀ x ∈ P, x < 256) ∧ iv.length = 16 ∧ (∀ x ∈ iv, x < 256) ∧
      decrypt_data bc (b64encode ((cbcEncrypt bc iv (pad P)).take 16)) (b64encode iv) =
        .ok q ∧ q ≠ P := by
  refine ⟨tamperPayload, zeroIV, List.replicate 15 0, by decide, by decide, by decide, ?_,
    by decide⟩
  have hB1len : blockB1.length = 16 := by decide
  have hB1b : ∀ x ∈ blockB1, x < 256 := by decide
  have hx : xorBytes blockB1 zeroIV = blockB1 := by decide
  have hblocks : toBlocks (pad tamperPayload) = [blockB1, blockB2] := by decide
  have hc1 := hbc blockB1 hB1len hB1b
  have hct : cbcEncrypt bc zeroIV (pad tamperPayload) =
      bc.enc blockB1 ++ bc.enc (xorBytes blockB2 (bc.enc blockB1)) := by
    rw [cbcEncrypt, hblocks]
    simp only [cbcEncBlocks, hx, List.flatten_cons, List.flatten_nil, List.append_nil]
  have htake : (cbcEncrypt bc zeroIV (pad tamperPayload)).take 16 = bc.enc blockB1 := by
    rw [hct, ← hc1.1]
    exact List.take_left _ _
  rw [htake]
  rw [decrypt_data, b64decode_b64encode _ hc1.2.1, b64decode_b64encode _ (by decide)]
  have htb : toBlocks (bc.enc blockB1) = [bc.enc blockB1] := by
    have := toBlocks_append16 (bc.enc blockB1) [] hc1.1
    simpa using this
  rw [cbcDecrypt, if_pos (by rw [hc1.1]), htb]
  have hdec : cbcDecBlocks bc zeroIV [bc.enc blockB1] = [blockB1] := by
    simp only [cbcDecBlocks, hc1.2.2, hx]
  rw [hdec]
  have hflat : ([blockB1] : List (List Nat)).flatten = blockB1 := by decide
  rw [hflat]
  have hunpad : unpad blockB1 = .ok (List.replicate 15 0) := by decide
  simp only [hunpad]

/-- C3 amended.  What the code does guarantee: ciphertext whose length
is not a multiple of the block size is rejected, and invalid PKCS7
padding after decryption is an error rather than a silent truncation;
but a tampered/truncated ciphertext that happens to decrypt to a
well-formed pad is silently returned (see the counterexample). -/
theorem decrypt_rejects_bad_length_and_padding (bc : BlockCipher) (ct iv : List Nat) :
    ((b64decode ct).length % 16 ≠ 0 →
      decrypt_data bc ct iv =
        .error ("Decryption failed: " ++ "Data must be padded to 16 byte boundary in CBC mode")) ∧
    (∀ padded, cbcDecrypt bc (b64decode iv) (b64decode ct) = .ok padded →
      ∀ e, unpad padded = .error e →
        decrypt_data bc ct iv = .error ("Decryption failed: " ++ e)) := by
  constructor
  · intro h
    rw [decrypt_data, cbcDecrypt, if_neg h]
  · intro padded h1 e h2
    rw [decrypt_data, h1]
    simp only [h2]

/-- Witness for the amended C3 theorem: a 3-byte ciphertext is rejected
for its length, and an all-zero one-block ciphertext is rejected for
its padding. -/
theorem decrypt_rejects_bad_length_and_padding_witness :
    ((b64decode [65, 65, 65, 65]).length % 16 ≠ 0 ∧
      decrypt_data revCipher [65, 65, 65, 65] [] =
        .error ("Decryption failed: " ++ "Data must be padded to 16 byte boundary in CBC mode")) ∧
    (cbcDecrypt revCipher (b64decode (b64encode zeroIV)) (b64decode (b64encode zeroIV)) =
        .ok zeroIV ∧
      unpad zeroIV = .error "Padding is incorrect." ∧
      decrypt_data revCipher (b64encode zeroIV) (b64encode zeroIV) =
        .error ("Decryption failed: " ++ "Padding is incorrect.")) :=
  ⟨⟨by decide,
      (decrypt_rejects_bad_length_and_padding revCipher [65, 65, 65, 65] []).1 (by decide)⟩,
    ⟨by decide, by decide,
      (decrypt_rejects_bad_length_and_padding revCipher (b64encode zeroIV) (b64encode zeroIV)).2
        zeroIV (by decide) "Padding is incorrect." (by decide)⟩⟩

/-! ## Capsule data model (services/capsule_service.py)

A MongoDB capsule document; `mongo_id` models the `_id` field (unique
per document), timestamps are a logical clock value.  `datetime.utcnow()`
is modelled as reading the clock `now` and advancing it, so distinct
calls return distinct, increasing values. -/

structure CapsuleDoc where
  mongo_id : Nat
  capsule_id : String
  user_id : String
  sender_id : String
  recipient_id : Option String
  recipient_email : Option String
  filename : String
  capsule_type : String
  unlock_date : Nat
  storage_type : String
  cloudinary_public_id : Option String
  cloudinary_url : Option String
  gridfs_id : Option String
  encryption_iv : List Nat
  original_size : Nat
  description : Option String
  created_at : Nat
  is_unlocked : Bool
  unlocked_at : Option Nat
  status : String
deriving Repr, DecidableEq

/-- The mutable database state: the `capsules` collection and the
logical clock. -/
structure SysState where
  capsules : List CapsuleDoc
  now : Nat
deriving Repr, DecidableEq

/-- Embedding of `capsules.find_one({'capsule_id': cid})`. -/
def find_one (capsules : List CapsuleDoc) (cid : String) : Option CapsuleDoc :=
  capsules.find? (fun d => d.capsule_id = cid)

/-! ## Blob stores (Cloudinary primary, GridFS legacy) -/

/-- Blob stores: Cloudinary (primary; `none` when unconfigured) and
GridFS (legacy, read-only for old capsules), each a map from locator
key to stored bytes. -/
structure Stores where
  cloudinary : Option (List (String × List Nat))
  gridfs : List (String × List Nat)
deriving Repr, DecidableEq

/-- First-match lookup in a blob map. -/
def lookupBlob (m : List (String × List Nat)) (k : String) : Option (List Nat) :=
  (m.find? (fun p => p.1 = k)).map Prod.snd

/-- Storage info dictionary passed around by the service. -/
structure StorageInfo where
  storage_type : String
  public_id : Option String
  gridfs_id : Option String
deriving Repr, DecidableEq

/-- Embedding of `CapsuleService._retrieve_file`: Cloudinary when the
locator tag says so (a missing object models a failed download),
otherwise the legacy GridFS path. -/
def retrieve_file (st : Stores) (info : StorageInfo) : Except String (List Nat) :=
  if info.storage_type = "cloudinary" then
    match info.public_id with
    | none => .error "Cloudinary public_id missing from storage info"
    | some pid =>
      match st.cloudinary with
      | none => .error "Cloudinary storage not available"
      | some m =>
        match lookupBlob m pid with
        | some bytes => .ok bytes
        | none => .error "Cloudinary download failed"
  else
    match info.gridfs_id with
    | none => .error "Storage info missing: no public_id (Cloudinary) or gridfs_id (GridFS)"
    | some gid =>
      match lookupBlob st.gridfs gid with
      | some bytes => .ok bytes
      | none => .error "Failed to retrieve file from GridFS"

/-- Embedding of `CapsuleService._delete_file` (best-effort, returns
whether an object was deleted, never raises). -/
def delete_file (st : Stores) (info : StorageInfo) : Bool × Stores :=
  if info.storage_type = "cloudinary" then
    match info.public_id with
    | none => (false, st)
    | some pid =>
      match st.cloudinary with
      | none => (false, st)
      | some m =>
        ((m.any (fun p => p.1 = pid)),
          { st with cloudinary := some (m.filter (fun p => p.1 ≠ pid)) })
  else
    match info.gridfs_id with
    | none => (false, st)
    | some gid =>
      ((st.gridfs.any (fun p => p.1 = gid)),
        { st with gridfs := st.gridfs.filter (fun p => p.1 ≠ gid) })

/-! ## Unlock (services/capsule_service.py `unlock_capsule`)

The operation is split into its read part (find the document, fetch the
blob, decrypt — no mutation) and its write part (the conditional on the
document read and the `update_one`), both so the sequential function is
literally their composition and so the two-caller race of C8 can be
expressed as an interleaving of these atomic steps. -/

/-- Result dictionary of `unlock_capsule`; `data` holds the decrypted
bytes for text capsules and their base64 for binary capsules, as in the
source. -/
structure UnlockResult where
  capsule_id : String
  filename : String
  capsule_type : String
  data : List Nat
  unlocked_at : Option Nat
  message : String
deriving Repr, DecidableEq

/-- Read phase of `unlock_capsule`: `find_one`, build storage info (the
source always passes `gridfs_id := None` here), retrieve and decrypt.
Any failure is the `ValueError` the source raises; no state is touched. -/
def unlockRead (bc : BlockCipher) (st : Stores) (s : SysState) (cid : String) :
    Except String (CapsuleDoc × List Nat) :=
  match find_one s.capsules cid with
  | none => .error "Capsule not found"
  | some doc =>
    match retrieve_file st
        { storage_type := doc.storage_type, public_id := doc.cloudinary_public_id,
          gridfs_id := none } with
    | .error e => .error ("Failed to decrypt capsule: " ++ e)
    | .ok data_bytes =>
      match decrypt_data bc (b64encode data_bytes) doc.encryption_iv with
      | .error e => .error ("Failed to decrypt capsule: " ++ e)
      | .ok d => .ok (doc, d)

/-- Embedding of `update_one({'_id': id}, {'$set': {'is_unlocked': True,
'unlocked_at': t}})`; `_id` is unique, so updating every match equals
updating the first. -/
def setUnlocked (capsules : List CapsuleDoc) (mid : Nat) (t : Nat) : List CapsuleDoc :=
  capsules.map (fun d =>
    if d.mongo_id = mid then { d with is_unlocked := true, unlocked_at := some t } else d)

/-- Write phase of `unlock_capsule`: the source checks the *previously
read* document and, when it was locked, writes unconditionally (one
`utcnow()` for the stored value, a second for the returned value). -/
def unlockWrite (s : SysState) (cid : String) (doc : CapsuleDoc) (decrypted : List Nat) :
    UnlockResult × SysState :=
  if doc.is_unlocked then
    ({ capsule_id := cid, filename := doc.filename, capsule_type := doc.capsule_type,
       data := if doc.capsule_type = "text" then decrypted else b64encode decrypted,
       unlocked_at := doc.unlocked_at, message := "Capsule already unlocked" }, s)
  else
    ({ capsule_id := cid, filename := doc.filename, capsule_type := doc.capsule_type,
       data := if doc.capsule_type = "text" then decrypted else b64encode decrypted,
       unlocked_at := some (s.now + 1), message := "Capsule unlocked successfully" },
     { capsules := setUnlocked s.capsules doc.mongo_id s.now, now := s.now + 2 })

/-- Embedding of `CapsuleService.unlock_capsule`. -/
def unlock_capsule (bc : BlockCipher) (st : Stores) (s : SysState) (cid : String) :
    Except String UnlockResult × SysState :=
  match unlockRead bc st s cid with
  | .error e => (.error e, s)
  | .ok (doc, d) =>
    let r := unlockWrite s cid doc d
    (.ok r.1, r.2)

/-- Embedding of `SchedulerService.force_unlock_capsule`, which calls
the service unlock directly with no time or identity gate. -/
def force_unlock_capsule (bc : BlockCipher) (st : Stores) (s : SysState) (cid : String) :
    Except String UnlockResult × SysState :=
  unlock_capsule bc st s cid

theorem find_one_setUnlocked (caps : List CapsuleDoc) (cid : String) (mid t : Nat) :
    find_one (setUnlocked caps mid t) cid =
      (find_one caps cid).map (fun d =>
        if d.mongo_id = mid then { d with is_unlocked := true, unlocked_at := some t }
        else d) := by
  induction caps with
  | nil => rfl
  | cons d caps ih =>
    simp only [find_one, setUnlocked, List.map_cons, List.find?_cons] at *
    by_cases hm : d.mongo_id = mid
    · by_cases hc : d.capsule_id = cid
      · simp [hm, hc]
      · simp only [hm, if_pos rfl, hc]
        simpa [hm, hc] using ih
    · by_cases hc : d.capsule_id = cid
      · simp [hm, hc]
      · simp only [hm, if_neg hm, hc]
        simpa [hm, hc] using ih

theorem unlockRead_elim (bc : BlockCipher) (st : Stores) (s : SysState) (cid : String)
    (doc : CapsuleDoc) (d : List Nat) (h : unlockRead bc st s cid = .ok (doc, d)) :
    find_one s.capsules cid = some doc ∧
    ∃ bytes,
      retrieve_file st
          { storage_type := doc.storage_type, public_id := doc.cloudinary_public_id,
            gridfs_id := none } = .ok bytes ∧
      decrypt_data bc (b64encode bytes) doc.encryption_iv = .ok d := by
  rw [unlockRead] at h
  split at h
  · simp at h
  · rename_i doc0 hfind
    split at h
    · simp at h
    · rename_i bytes hr
      split at h
      · simp at h
      · rename_i dd hd
        simp only [Except.ok.injEq, Prod.mk.injEq] at h
        obtain ⟨h1, h2⟩ := h
        subst h1
        subst h2
        exact ⟨hfind, bytes, hr, hd⟩

/-- C1.  Unlock is idempotent: a first unlock of a locked, decryptable
capsule reports success, stamps `unlocked_at` in the record once (with
the clock value of the `update_one` call), and a second unlock returns
the `already unlocked` marker with exactly the recorded timestamp and
performs no further write.  The value returned by the *first* call is
the reading of a second `utcnow()` call, as in the source. -/
theorem unlock_idempotent (bc : BlockCipher) (st : Stores) (s : SysState) (cid : String)
    (doc : CapsuleDoc) (d : List Nat)
    (hread : unlockRead bc st s cid = .ok (doc, d))
    (hlocked : doc.is_unlocked = false) :
    (unlock_capsule bc st s cid).1 = .ok
      { capsule_id := cid, filename := doc.filename, capsule_type := doc.capsule_type,
        data := if doc.capsule_type = "text" then d else b64encode d,
        unlocked_at := some (s.now + 1), message := "Capsule unlocked successfully" } ∧
    find_one (unlock_capsule bc st s cid).2.capsules cid =
      some { doc with is_unlocked := true, unlocked_at := some s.now } ∧
    (unlock_capsule bc st (unlock_capsule bc st s cid).2 cid).1 = .ok
      { capsule_id := cid, filename := doc.filename, capsule_type := doc.capsule_type,
        data := if doc.capsule_type = "text" then d else b64encode d,
        unlocked_at := some s.now, message := "Capsule already unlocked" } ∧
    (unlock_capsule bc st (unlock_capsule bc st s cid).2 cid).2 =
      (unlock_capsule bc st s cid).2 := by
  obtain ⟨hfind, bytes, hr, hd⟩ := unlockRead_elim bc st s cid doc d hread
  have hcall1 : unlock_capsule bc st s cid =
      (.ok { capsule_id := cid, filename := doc.filename, capsule_type := doc.capsule_type,
             data := if doc.capsule_type = "text" then d else b64encode d,
             unlocked_at := some (s.now + 1), message := "Capsule unlocked successfully" },
       { capsules := setUnlocked s.capsules doc.mongo_id s.now, now := s.now + 2 }) := by
    simp [unlock_capsule, hread, unlockWrite, hlocked]
  have hfind2 : find_one (setUnlocked s.capsules doc.mongo_id s.now) cid =
      some { doc with is_unlocked := true, unlocked_at := some s.now } := by
    rw [find_one_setUnlocked, hfind]
    simp
  have hread2 : unlockRead bc st
      { capsules := setUnlocked s.capsules doc.mongo_id s.now, now := s.now + 2 } cid =
      .ok ({ doc with is_unlocked := true, unlocked_at := some s.now }, d) := by
    simp [unlockRead, hfind2, hr, hd]
  have hcall2 : unlock_capsule bc st
      { capsules := setUnlocked s.capsules doc.mongo_id s.now, now := s.now + 2 } cid =
      (.ok { capsule_id := cid, filename := doc.filename, capsule_type := doc.capsule_type,
             data := if doc.capsule_type = "text" then d else b64encode d,
             unlocked_at := some s.now, message := "Capsule already unlocked" },
       { capsules := setUnlocked s.capsules doc.mongo_id s.now, now := s.now + 2 }) := by
    simp [unlock_capsule, hread2, unlockWrite]
  rw [hcall1]
  refine ⟨rfl, hfind2, ?_, ?_⟩
  · rw [hcall2]
  · rw [hcall2]

/-! ## Concrete capsule scenario used by witnesses -/

/-- Sample plaintext bytes ("Hi"). -/
def samplePlain : List Nat := [72, 105]

/-- Sample encryption of the plaintext under the concrete cipher. -/
def sampleEnc : EncryptResult := encrypt_data revCipher zeroIV samplePlain

/-- The stored blob: the raw ciphertext bytes
(`base64.b64decode(encrypted_b64)` in `create_capsule`). -/
def sampleBlob : List Nat := b64decode sampleEnc.encrypted_data

/-- A locked text capsule owned by `u1` for registered recipient `r1`. -/
def sampleDoc : CapsuleDoc :=
  { mongo_id := 1, capsule_id := "c1", user_id := "u1", sender_id := "u1",
    recipient_id := some "r1", recipient_email := none,
    filename := "description.txt", capsule_type := "text", unlock_date := 50,
    storage_type := "cloudinary", cloudinary_public_id := some "time_capsules/c1",
    cloudinary_url := some "https://res.example/c1", gridfs_id := none,
    encryption_iv := sampleEnc.iv, original_size := 2, description := some "Hi",
    created_at := 10, is_unlocked := false, unlocked_at := none, status := "locked" }

/-- Blob stores holding the sample capsule payload in Cloudinary. -/
def sampleStores : Stores :=
  { cloudinary := some [("time_capsules/c1", sampleBlob)], gridfs := [] }

/-- Database state holding just the sample capsule, clock at 100. -/
def sampleState : SysState := { capsules := [sampleDoc], now := 100 }

/-- Witness for C1 on the concrete sample capsule. -/
theorem unlock_idempotent_witness :
    unlockRead revCipher sampleStores sampleState "c1" = .ok (sampleDoc, samplePlain) ∧
    sampleDoc.is_unlocked = false ∧
    ((unlock_capsule revCipher sampleStores sampleState "c1").1 = .ok
      { capsule_id := "c1", filename := sampleDoc.filename,
        capsule_type := sampleDoc.capsule_type,
        data := if sampleDoc.capsule_type = "text" then samplePlain else b64encode samplePlain,
        unlocked_at := some (sampleState.now + 1),
        message := "Capsule unlocked successfully" } ∧
    find_one (unlock_capsule revCipher sampleStores sampleState "c1").2.capsules "c1" =
      some { sampleDoc with is_unlocked := true, unlocked_at := some sampleState.now } ∧
    (unlock_capsule revCipher sampleStores
        (unlock_capsule revCipher sampleStores sampleState "c1").2 "c1").1 = .ok
      { capsule_id := "c1", filename := sampleDoc.filename,
        capsule_type := sampleDoc.capsule_type,
        data := if sampleDoc.capsule_type = "text" then samplePlain else b64encode samplePlain,
        unlocked_at := some sampleState.now, message := "Capsule already unlocked" } ∧
    (unlock_capsule revCipher sampleStores
        (unlock_capsule revCipher sampleStores sampleState "c1").2 "c1").2 =
      (unlock_capsule revCipher sampleStores sampleState "c1").2) :=
  ⟨by decide, by decide,
    unlock_idempotent revCipher sampleStores sampleState "c1" sampleDoc samplePlain
      (by decide) (by decide)⟩

/-- C2.  Unlock is atomic on retrieval/decryption failure: when the
read phase of `unlock_capsule` fails (missing blob or decrypt error) on
an existing capsule, the error is surfaced to the caller and the state
is returned unchanged — the capsule stays exactly as it was (LOCKED,
`unlocked_at` unset), so a later sweep can retry it. -/
theorem unlock_atomic_on_decrypt_failure (bc : BlockCipher) (st : Stores) (s : SysState)
    (cid : String) (doc : CapsuleDoc) (e : String)
    (hfind : find_one s.capsules cid = some doc)
    (hlocked : doc.is_unlocked = false)
    (herr : unlockRead bc st s cid = .error e) :
    unlock_capsule bc st s cid = (.error e, s) ∧
    find_one (unlock_capsule bc st s cid).2.capsules cid = some doc ∧
    doc.is_unlocked = false := by
  have hcall : unlock_capsule bc st s cid = (.error e, s) := by
    simp [unlock_capsule, herr]
  exact ⟨hcall, by rw [hcall]; exact hfind, hlocked⟩

/-- Stores in which the sample blob is absent (download failure). -/
def emptyStores : Stores := { cloudinary := some [], gridfs := [] }

/-- Witness for C2: the sample capsule with its blob missing from the
store errors out and mutates nothing. -/
theorem unlock_atomic_on_decrypt_failure_witness :
    find_one sampleState.capsules "c1" = some sampleDoc ∧
    sampleDoc.is_unlocked = false ∧
    unlockRead revCipher emptyStores sampleState "c1" =
      .error ("Failed to decrypt capsule: " ++ "Cloudinary download failed") ∧
    (unlock_capsule revCipher emptyStores sampleState "c1" =
      (.error ("Failed to decrypt capsule: " ++ "Cloudinary download failed"), sampleState) ∧
    find_one (unlock_capsule revCipher emptyStores sampleState "c1").2.capsules "c1" =
      some sampleDoc ∧
    sampleDoc.is_unlocked = false) :=
  ⟨by decide, by decide, by decide,
    unlock_atomic_on_decrypt_failure revCipher emptyStores sampleState "c1" sampleDoc
      ("Failed to decrypt capsule: " ++ "Cloudinary download failed")
      (by decide) (by decide) (by decide)⟩

/-! ## C8: two racing unlock calls

Each `unlock_capsule` call is an interleaving of two atomic steps: the
read phase (no mutation) and the write phase (decided on the document
the call read earlier).  A schedule is a list of booleans: `true` steps
caller A, `false` steps caller B. -/

/-- Progress of one unlock call through its two phases. -/
inductive CallPhase where
  | ready : CallPhase
  | readDone : CapsuleDoc → List Nat → CallPhase
  | finished : Except String UnlockResult → CallPhase
deriving Repr, DecidableEq

/-- One atomic step of an unlock call against the shared state. -/
def stepCall (bc : BlockCipher) (st : Stores) (cid : String)
    (p : CallPhase) (s : SysState) : CallPhase × SysState :=
  match p with
  | .ready =>
    match unlockRead bc st s cid with
    | .error e => (.finished (.error e), s)
    | .ok (doc, d) => (.readDone doc d, s)
  | .readDone doc d =>
    let r := unlockWrite s cid doc d
    (.finished (.ok r.1), r.2)
  | .finished r => (.finished r, s)

/-- Run two unlock calls A and B under a schedule. -/
def runSched (bc : BlockCipher) (st : Stores) (cid : String) :
    List Bool → CallPhase × CallPhase × SysState → CallPhase × CallPhase × SysState
  | [], t => t
  | tick :: rest, (pA, pB, s) =>
    if tick then
      let r := stepCall bc st cid pA s
      runSched bc st cid rest (r.1, pB, r.2)
    else
      let r := stepCall bc st cid pB s
      runSched bc st cid rest (pA, r.1, r.2)

/-- Outcome message of a finished successful call, if any. -/
def phaseMessage : CallPhase → Option String
  | .finished (.ok r) => some r.message
  | _ => none

/-- Stored timestamp returned by a finished successful call, if any. -/
def phaseUnlockedAt : CallPhase → Option (Option Nat)
  | .finished (.ok r) => some r.unlocked_at
  | _ => none

/-- C8 counterexample.  In the racy interleaving (both calls read the
LOCKED document before either writes), both callers of the sample
capsule succeed, but the write is *not* a conditional
`update where state=LOCKED` with zero-rows-affected handling: caller B
mutates the record again even though it is already UNLOCKED after
caller A, overwriting the `unlocked_at` caller A stored (100) with its
own later value (102).  `unlocked_at` is written twice with different
values, refuting the single-conditional-write part of the claim. -/
theorem racy_unlock_double_write :
    phaseMessage (runSched revCipher sampleStores "c1" [true, false, true, false]
      (.ready, .ready, sampleState)).1 = some "Capsule unlocked successfully" ∧
    phaseMessage (runSched revCipher sampleStores "c1" [true, false, true, false]
      (.ready, .ready, sampleState)).2.1 = some "Capsule unlocked successfully" ∧
    find_one (runSched revCipher sampleStores "c1" [true, false, true]
      (.ready, .ready, sampleState)).2.2.capsules "c1" =
      some { sampleDoc with is_unlocked := true, unlocked_at := some 100 } ∧
    find_one (runSched revCipher sampleStores "c1" [true, false, true, false]
      (.ready, .ready, sampleState)).2.2.capsules "c1" =
      some { sampleDoc with is_unlocked := true, unlocked_at := some 102 } := by
  refine ⟨by decide, by decide, by decide, by decide⟩

/-- C8 amended.  What does hold: in the racy interleaving two
concurrent unlock calls on the same LOCKED capsule both succeed (no
error surfaces to either caller) and the record afterwards holds a
single `unlocked_at` value — but that value is the *second* writer's
timestamp: the transition is a check on the stale read followed by an
unconditional write, so both calls write and the later write wins,
rather than a conditional write with zero-rows-affected handling. -/
theorem racy_unlock_both_succeed (bc : BlockCipher) (st : Stores) (s : SysState)
    (cid : String) (doc : CapsuleDoc) (d : List Nat)
    (hread : unlockRead bc st s cid = .ok (doc, d))
    (hlocked : doc.is_unlocked = false) :
    phaseMessage (runSched bc st cid [true, false, true, false]
      (.ready, .ready, s)).1 = some "Capsule unlocked successfully" ∧
    phaseMessage (runSched bc st cid [true, false, true, false]
      (.ready, .ready, s)).2.1 = some "Capsule unlocked successfully" ∧
    find_one (runSched bc st cid [true, false, true, false]
      (.ready, .ready, s)).2.2.capsules cid =
      some { doc with is_unlocked := true, unlocked_at := some (s.now + 2) } := by
  obtain ⟨hfind, bytes, hr, hd⟩ := unlockRead_elim bc st s cid doc d hread
  have hrun : runSched bc st cid [true, false, true, false] (.ready, .ready, s) =
      (.finished (.ok { capsule_id := cid, filename := doc.filename,
                        capsule_type := doc.capsule_type,
                        data := if doc.capsule_type = "text" then d else b64encode d,
                        unlocked_at := some (s.now + 1),
                        message := "Capsule unlocked successfully" }),
       .finished (.ok { capsule_id := cid, filename := doc.filename,
                        capsule_type := doc.capsule_type,
                        data := if doc.capsule_type = "text" then d else b64encode d,
                        unlocked_at := some (s.now + 3),
                        message := "Capsule unlocked successfully" }),
       { capsules := setUnlocked (setUnlocked s.capsules doc.mongo_id s.now)
                       doc.mongo_id (s.now + 2),
         now := s.now + 4 }) := by
    simp [runSched, stepCall, hread, unlockWrite, hlocked]
  rw [hrun]
  refine ⟨rfl, rfl, ?_⟩
  simp only [find_one_setUnlocked, hfind, Option.map_map, Option.map_some]
  simp

/-- Witness for the amended C8 theorem on the sample capsule. -/
theorem racy_unlock_both_succeed_witness :
    unlockRead revCipher sampleStores sampleState "c1" = .ok (sampleDoc, samplePlain) ∧
    sampleDoc.is_unlocked = false ∧
    (phaseMessage (runSched revCipher sampleStores "c1" [true, false, true, false]
      (.ready, .ready, sampleState)).1 = some "Capsule unlocked successfully" ∧
    phaseMessage (runSched revCipher sampleStores "c1" [true, false, true, false]
      (.ready, .ready, sampleState)).2.1 = some "Capsule unlocked successfully" ∧
    find_one (runSched revCipher sampleStores "c1" [true, false, true, false]
      (.ready, .ready, sampleState)).2.2.capsules "c1" =
      some { sampleDoc with is_unlocked := true, unlocked_at := some (sampleState.now + 2) }) :=
  ⟨by decide, by decide,
    racy_unlock_both_succeed revCipher sampleStores sampleState "c1" sampleDoc samplePlain
      (by decide) (by decide)⟩

/-! ## Route-layer unlock gates (routes/capsule_routes.py `unlock_capsule`)

The HTTP handler checks that the caller is the recipient and that the
unlock date has passed before calling the service; errors are
`(status, message)` pairs. -/

/-- Embedding of the gate portion of the `/capsules/<id>/unlock`
handler: 404 when absent, 403 when the caller is not the recipient,
400 when `unlock_date > now`, otherwise the service unlock (500 on its
failure). -/
def route_unlock (bc : BlockCipher) (st : Stores) (s : SysState) (cid user_id : String) :
    Except (Nat × String) UnlockResult × SysState :=
  match find_one s.capsules cid with
  | none => (.error (404, "Capsule not found"), s)
  | some doc =>
    if doc.recipient_id ≠ some user_id then
      (.error (403, "Only the recipient can unlock this capsule"), s)
    else if s.now < doc.unlock_date then
      (.error (400, "Capsule is not ready to be unlocked yet"), s)
    else
      match unlock_capsule bc st s cid with
      | (.ok r, s2) => (.ok r, s2)
      | (.error e, s2) => (.error (500, "Failed to unlock capsule: " ++ e), s2)

/-- C10.  The service-layer unlock has no precondition beyond
existence: it takes no requesting principal at all, and for any found,
locked, decryptable capsule it decrypts and flips the state even when
the clock is before `unlock_date`.  The time gate and the
recipient-identity gate exist only in the HTTP route, and the
scheduler's `force_unlock_capsule` is definitionally the ungated
service call. -/
theorem unlock_no_precondition_beyond_existence (bc : BlockCipher) (st : Stores)
    (s : SysState) (cid : String) (doc : CapsuleDoc) (d : List Nat) (u : String)
    (hread : unlockRead bc st s cid = .ok (doc, d))
    (hlocked : doc.is_unlocked = false)
    (hearly : s.now < doc.unlock_date) :
    (unlock_capsule bc st s cid).1 = .ok
      { capsule_id := cid, filename := doc.filename, capsule_type := doc.capsule_type,
        data := if doc.capsule_type = "text" then d else b64encode d,
        unlocked_at := some (s.now + 1), message := "Capsule unlocked successfully" } ∧
    find_one (unlock_capsule bc st s cid).2.capsules cid =
      some { doc with is_unlocked := true, unlocked_at := some s.now } ∧
    (∀ cid2 s2, force_unlock_capsule bc st s2 cid2 = unlock_capsule bc st s2 cid2) ∧
    (doc.recipient_id ≠ some u →
      route_unlock bc st s cid u =
        (.error (403, "Only the recipient can unlock this capsule"), s)) ∧
    (doc.recipient_id = some u →
      route_unlock bc st s cid u =
        (.error (400, "Capsule is not ready to be unlocked yet"), s)) := by
  obtain ⟨hfind, bytes, hr, hd⟩ := unlockRead_elim bc st s cid doc d hread
  have hcall1 : unlock_capsule bc st s cid =
      (.ok { capsule_id := cid, filename := doc.filename, capsule_type := doc.capsule_type,
             data := if doc.capsule_type = "text" then d else b64encode d,
             unlocked_at := some (s.now + 1), message := "Capsule unlocked successfully" },
       { capsules := setUnlocked s.capsules doc.mongo_id s.now, now := s.now + 2 }) := by
    simp [unlock_capsule, hread, unlockWrite, hlocked]
  have hfind2 : find_one (setUnlocked s.capsules doc.mongo_id s.now) cid =
      some { doc with is_unlocked := true, unlocked_at := some s.now } := by
    rw [find_one_setUnlocked, hfind]
    simp
  refine ⟨by rw [hcall1], by rw [hcall1]; exact hfind2, fun _ _ => rfl, ?_, ?_⟩
  · intro hne
    simp [route_unlock, hfind, hne]
  · intro heq
    simp [route_unlock, hfind, heq, hearly]

/-- Witness for C10 on the sample capsule: its unlock date is 50, the
clock is 100 — adjust to a later date so the clock is before it. -/
def earlyDoc : CapsuleDoc := { sampleDoc with unlock_date := 500 }

/-- State holding the not-yet-due sample capsule. -/
def earlyState : SysState := { capsules := [earlyDoc], now := 100 }

/-- Witness for C10: the not-yet-due capsule is unlocked by the service
call, the route refuses both a non-recipient (403) and the recipient
before the date (400), and force-unlock equals the service call. -/
theorem unlock_no_precondition_witness :
    unlockRead revCipher sampleStores earlyState "c1" = .ok (earlyDoc, samplePlain) ∧
    earlyDoc.is_unlocked = false ∧
    earlyState.now < earlyDoc.unlock_date ∧
    ((unlock_capsule revCipher sampleStores earlyState "c1").1 = .ok
      { capsule_id := "c1", filename := earlyDoc.filename, capsule_type := earlyDoc.capsule_type,
        data := if earlyDoc.capsule_type = "text" then samplePlain else b64encode samplePlain,
        unlocked_at := some (earlyState.now + 1),
        message := "Capsule unlocked successfully" } ∧
    find_one (unlock_capsule revCipher sampleStores earlyState "c1").2.capsules "c1" =
      some { earlyDoc with is_unlocked := true, unlocked_at := some earlyState.now } ∧
    (∀ cid2 s2, force_unlock_capsule revCipher sampleStores s2 cid2 =
      unlock_capsule revCipher sampleStores s2 cid2) ∧
    (earlyDoc.recipient_id ≠ some "r1" →
      route_unlock revCipher sampleStores earlyState "c1" "r1" =
        (.error (403, "Only the recipient can unlock this capsule"), earlyState)) ∧
    (earlyDoc.recipient_id = some "r1" →
      route_unlock revCipher sampleStores earlyState "c1" "r1" =
        (.error (400, "Capsule is not ready to be unlocked yet"), earlyState))) :=
  ⟨by decide, by decide, by decide,
    unlock_no_precondition_beyond_existence revCipher sampleStores earlyState "c1" earlyDoc
      samplePlain "r1" (by decide) (by decide) (by decide)⟩

/-! ## Creation (services/capsule_service.py `create_capsule`)

Python falsy empties (empty strings, empty byte strings, `None`) are
modelled uniformly as `none`; the fresh `uuid4` capsule id, the fresh
Mongo `_id` and the random IV are explicit parameters.  The Cloudinary
upload network call is the abstract `PutFn`; `_store_file` wraps it
exactly as the source does. -/

/-- Lower-case a string (Python `str.lower`). -/
def lowerStr (s : String) : String :=
  String.mk (s.toList.map Char.toLower)

/-- Whether the filename contains a dot. -/
def hasDot (s : String) : Bool :=
  s.toList.contains '.'

/-- The substring after the last dot (`filename.rsplit('.', 1)[1]`). -/
def extAfterLastDot (s : String) : String :=
  String.mk ((s.toList.reverse.takeWhile (fun c => c ≠ '.')).reverse)

/-- The allowed upload extensions of `CapsuleService`. -/
def allowed_extensions : List String :=
  ["txt", "pdf", "png", "jpg", "jpeg", "gif",
   "mp4", "avi", "mov", "mp3", "wav", "ogg", "m4a", "aac", "flac"]

/-- Embedding of `CapsuleService._allowed_file`. -/
def allowed_file (filename : String) : Bool :=
  if ¬ hasDot filename then false
  else allowed_extensions.contains (lowerStr (extAfterLastDot filename))

/-- Embedding of `CapsuleService._get_file_type`: expects a *filename*
and returns `other` whenever its argument contains no dot. -/
def get_file_type (filename : String) : String :=
  if ¬ hasDot filename then "other"
  else
    let e := lowerStr (extAfterLastDot filename)
    if ["txt", "pdf"].contains e then "text"
    else if ["png", "jpg", "jpeg", "gif"].contains e then "image"
    else if ["mp4", "avi", "mov"].contains e then "video"
    else if ["mp3", "wav", "ogg", "m4a", "aac", "flac"].contains e then "audio"
    else "other"

/-- UTF-8 bytes of a string (`description.encode('utf-8')`). -/
def strBytes (s : String) : List Nat :=
  s.toUTF8.toList.map (fun b => b.toNat)

/-- Upload result dictionary of the Cloudinary `upload_encrypted_file`
call (it carries no `storage_type` key). -/
structure UploadInfo where
  public_id : String
  secure_url : String
deriving Repr, DecidableEq

/-- The abstract Cloudinary upload: may mutate the store or fail. -/
def PutFn : Type :=
  Stores → List Nat → String → Except String UploadInfo × Stores

/-- Embedding of `CapsuleService._store_file`: raises when Cloudinary
is unconfigured, otherwise wraps any upload failure in a `ValueError`. -/
def store_file (put : PutFn) (st : Stores) (encrypted_bytes : List Nat) (cid : String) :
    Except String UploadInfo × Stores :=
  match st.cloudinary with
  | none => (.error "Cloudinary storage is not available. Please configure Cloudinary credentials.", st)
  | some _ =>
    match put st encrypted_bytes cid with
    | (.ok r, st2) => (.ok r, st2)
    | (.error e, st2) => (.error ("Failed to upload file to Cloudinary: " ++ e), st2)

/-- Return dictionary of `create_capsule`. -/
structure CreateResult where
  capsule_id : String
  message : String
  unlock_date : Nat
  storage_type : String
  cloudinary_public_id : Option String
  cloudinary_url : Option String
deriving Repr, DecidableEq

/-- Truthy-filename disallowed-extension test of the validation chain
(`if filename and not self._allowed_file(filename)`). -/
def filename_not_allowed (filename : Option String) : Bool :=
  match filename with
  | some f => ! allowed_file f
  | none => false

/-- Content branch of `create_capsule`: a file capsule takes its type
from the filename and encrypts the file bytes; otherwise a description
capsule encrypts the UTF-8 description under the sentinel filename. -/
def capsule_payload (bc : BlockCipher) (iv : List Nat) (file_data : Option (List Nat))
    (filename : Option String) (description : Option String) :
    Option (String × Nat × EncryptResult × String) :=
  match file_data, filename with
  | some fd, some fn =>
    some (get_file_type fn, fd.length, encrypt_data bc iv fd, fn)
  | _, _ =>
    match description with
    | some desc =>
      some ("text", (strBytes desc).length, encrypt_data bc iv (strBytes desc),
        "description.txt")
    | none => none

/-- Embedding of `CapsuleService.create_capsule`: the validation chain,
the encrypt step, the storage step and the `insert_one`, in source
order.  Note the validation has no owner-versus-recipient check. -/
def create_capsule (bc : BlockCipher) (iv : List Nat) (newId : String) (newMongoId : Nat)
    (put : PutFn) (st : Stores) (s : SysState)
    (user_id : String) (unlock_date : Nat) (description : Option String)
    (recipient_id : Option String) (file_data : Option (List Nat))
    (filename : Option String) (recipient_email : Option String) :
    Except String CreateResult × Stores × SysState :=
  if recipient_id = none ∧ recipient_email = none then
    (.error "Recipient is required. Provide recipient_id or recipient_email.", st, s)
  else if file_data = none ∧ description = none then
    (.error "Either a file or description must be provided.", st, s)
  else if file_data.isSome ∧ filename = none then
    (.error "Filename is required when uploading a file.", st, s)
  else if filename_not_allowed filename then
    (.error "File type not allowed", st, s)
  else
    match capsule_payload bc iv file_data filename description with
    | none => (.error "Invalid capsule content", st, s)
    | some (capsule_type, original_size, enc, fname) =>
      match store_file put st (b64decode enc.encrypted_data) newId with
      | (.error e, st2) => (.error ("Failed to store capsule: " ++ e), st2, s)
      | (.ok info, st2) =>
        let doc : CapsuleDoc :=
          { mongo_id := newMongoId, capsule_id := newId, user_id := user_id,
            sender_id := user_id, recipient_id := recipient_id,
            recipient_email := recipient_email, filename := fname,
            capsule_type := capsule_type, unlock_date := unlock_date,
            storage_type := "cloudinary", cloudinary_public_id := some info.public_id,
            cloudinary_url := some info.secure_url, gridfs_id := none,
            encryption_iv := enc.iv, original_size := original_size,
            description := description, created_at := s.now, is_unlocked := false,
            unlocked_at := none, status := "locked" }
        (.ok { capsule_id := newId, message := "Capsule created successfully",
               unlock_date := unlock_date, storage_type := "cloudinary",
               cloudinary_public_id := some info.public_id,
               cloudinary_url := some info.secure_url },
         st2, { capsules := s.capsules ++ [doc], now := s.now + 1 })

theorem store_file_no_ok (put : PutFn) (st : Stores) (e : String)
    (hput : ∀ b c, (put st b c).1 = .error e) (b : List Nat) (cid : String) :
    ∀ info st2, store_file put st b cid ≠ (.ok info, st2) := by
  intro info st2
  rw [store_file]
  cases hcl : st.cloudinary with
  | none => simp
  | some m =>
    cases hp : put st b cid with
    | mk p1 p2 =>
      have : p1 = .error e := by rw [← hput b cid, hp]
      subst this
      simp

/-- C4.  Creation is atomic with respect to blob storage: whenever the
primary (Cloudinary) upload fails, `create_capsule` returns an error
and the capsules collection is unchanged — no metadata record without
a stored payload, for every combination of arguments. -/
theorem create_aborts_on_put_failure (bc : BlockCipher) (iv : List Nat)
    (newId : String) (newMongoId : Nat) (put : PutFn) (st : Stores) (s : SysState)
    (user_id : String) (unlock_date : Nat) (description : Option String)
    (recipient_id : Option String) (file_data : Option (List Nat))
    (filename : Option String) (recipient_email : Option String) (e : String)
    (hput : ∀ b c, (put st b c).1 = .error e) :
    (∃ msg st2, create_capsule bc iv newId newMongoId put st s user_id unlock_date
      description recipient_id file_data filename recipient_email =
        (.error msg, st2, s)) := by
  rw [create_capsule]
  split
  · exact ⟨_, _, rfl⟩
  split
  · exact ⟨_, _, rfl⟩
  split
  · exact ⟨_, _, rfl⟩
  split
  · exact ⟨_, _, rfl⟩
  split
  · exact ⟨_, _, rfl⟩
  split
  · exact ⟨_, _, rfl⟩
  · rename_i info st2 heq
    exact absurd heq (store_file_no_ok put st e hput _ newId info st2)

/-- A put that always fails with a network error and leaves the store
as it was. -/
def failingPut : PutFn := fun st _ _ => (.error "network unreachable", st)

/-- Witness for C4: a fully valid create call against the failing
uploader errors out and persists nothing. -/
theorem create_aborts_on_put_failure_witness :
    (∀ b c, (failingPut sampleStores b c).1 = .error "network unreachable") ∧
    (∃ msg st2, create_capsule revCipher zeroIV "c9" 9 failingPut sampleStores sampleState
      "u1" 50 none (some "r1") (some [1, 2, 3]) (some "a.png") none =
        (.error msg, st2, sampleState)) :=
  ⟨fun _ _ => rfl,
    create_aborts_on_put_failure revCipher zeroIV "c9" 9 failingPut sampleStores sampleState
      "u1" 50 none (some "r1") (some [1, 2, 3]) (some "a.png") none
      "network unreachable" (fun _ _ => rfl)⟩

/-- A put that stores the bytes under the Cloudinary key
`time_capsules/<capsule_id>` and reports the upload result, like a
healthy `cloudinary.uploader.upload`. -/
def goodPut : PutFn := fun st bytes cid =>
  match st.cloudinary with
  | some m =>
    (.ok { public_id := "time_capsules/" ++ cid,
           secure_url := "https://res.example/" ++ cid },
     { st with cloudinary := some (("time_capsules/" ++ cid, bytes) :: m) })
  | none => (.error "Cloudinary storage not available", st)

/-- C5 counterexample.  The service-layer `create_capsule` has no
owner-versus-recipient check: creating a capsule with
`owner = recipient = "u1"` succeeds and persists a record whose owner
equals its recipient, so the Lifecycle Engine `create` does *not*
always raise a ValidationError on self-send. -/
theorem service_create_allows_self_send :
    (create_capsule revCipher zeroIV "c5" 5 goodPut sampleStores sampleState
      "u1" 50 none (some "u1") (some [1, 2, 3]) (some "a.png") none).1 =
      .ok { capsule_id := "c5", message := "Capsule created successfully",
            unlock_date := 50, storage_type := "cloudinary",
            cloudinary_public_id := some "time_capsules/c5",
            cloudinary_url := some "https://res.example/c5" } ∧
    (find_one (create_capsule revCipher zeroIV "c5" 5 goodPut sampleStores sampleState
      "u1" 50 none (some "u1") (some [1, 2, 3]) (some "a.png") none).2.2.capsules
        "c5").map (fun d => (d.user_id, d.recipient_id)) = some ("u1", some "u1") := by
  exact ⟨by decide, by decide⟩

/-! ## Route-layer create validation (routes/capsule_routes.py) -/

/-- A user document of the `users` collection (`_id` as string). -/
structure UserDoc where
  mongo_id : String
  display_name : String
  email : Option String
deriving Repr, DecidableEq

/-- Embedding of `users.find_one({'_id': uid})`. -/
def find_user (users : List UserDoc) (uid : String) : Option UserDoc :=
  users.find? (fun u => u.mongo_id = uid)

/-- Embedding of the recipient validation/resolution portion of the
create route (routes/capsule_routes.py lines 73-117): resolves the
recipient and rejects self-send, returning the resolved registered
recipient id (if any) on success. -/
def route_resolve_recipient (users : List UserDoc) (user_id : String)
    (recipient_id recipient_name recipient_email : Option String) :
    Except (Nat × String) (Option String) :=
  if recipient_id = none ∧ recipient_name = none ∧ recipient_email = none then
    .error (400, "Recipient is required. Provide recipient_id, recipient_name, or recipient_email.")
  else
    match recipient_id with
    | some rid =>
      match find_user users rid with
      | none => .error (404, "Recipient not found. User may have been deleted.")
      | some rdoc =>
        if rdoc.mongo_id = user_id then
          .error (400, "You cannot send a capsule to yourself")
        else .ok (some rdoc.mongo_id)
    | none =>
      match recipient_name with
      | some rname =>
        match users.find? (fun u => u.display_name = rname) with
        | none => .error (404, "No user found with that display name")
        | some rdoc =>
          if rdoc.mongo_id = user_id then
            .error (400, "You cannot send a capsule to yourself")
          else .ok (some rdoc.mongo_id)
      | none =>
        match find_user users user_id with
        | some sdoc =>
          match sdoc.email, recipient_email with
          | some se, some re =>
            if lowerStr se = lowerStr re then
              .error (400, "You cannot send a capsule to yourself")
            else .ok none
          | _, _ => .ok none
        | none => .ok none

/-- C5 amended.  Self-send rejection lives in the HTTP route layer, not
the engine: when `recipient_id` resolves to the caller, the create
route rejects with the self-send validation error before the service is
reached. -/
theorem route_create_rejects_self_send (users : List UserDoc) (user_id rid : String)
    (rdoc : UserDoc) (rname remail : Option String)
    (hfind : find_user users rid = some rdoc) (hself : rdoc.mongo_id = user_id) :
    route_resolve_recipient users user_id (some rid) rname remail =
      .error (400, "You cannot send a capsule to yourself") := by
  simp [route_resolve_recipient, hfind, hself]

/-- Witness for the amended C5 theorem: user `u1` naming themselves as
`recipient_id`. -/
theorem route_create_rejects_self_send_witness :
    find_user [{ mongo_id := "u1", display_name := "Alice", email := some "a@example.com" }]
      "u1" = some { mongo_id := "u1", display_name := "Alice", email := some "a@example.com" } ∧
    route_resolve_recipient
      [{ mongo_id := "u1", display_name := "Alice", email := some "a@example.com" }]
      "u1" (some "u1") none none =
      .error (400, "You cannot send a capsule to yourself") :=
  ⟨by decide,
    route_create_rejects_self_send
      [{ mongo_id := "u1", display_name := "Alice", email := some "a@example.com" }]
      "u1" "u1" { mongo_id := "u1", display_name := "Alice", email := some "a@example.com" }
      none none (by decide) (by decide)⟩

/-! ## Metadata view and update (services/capsule_service.py) -/

/-- Embedding of `get_capsule_metadata`: the returned item is the
document itself (the sender/recipient display-name enrichment and ISO
conversion are presentation and are omitted). -/
def get_capsule_metadata (s : SysState) (cid : String) : Except String CapsuleDoc :=
  match find_one s.capsules cid with
  | none => .error "Capsule not found"
  | some doc => .ok doc

/-- Replace the first-match document (`update_one` keyed on
`capsule_id`; ids are unique). -/
def replace_doc (capsules : List CapsuleDoc) (cid : String) (newDoc : CapsuleDoc) :
    List CapsuleDoc :=
  capsules.map (fun d => if d.capsule_id = cid then newDoc else d)

/-- Embedding of `CapsuleService.update_capsule`.  The file-replacement
branch reproduces the source faithfully, including the slip at lines
600-603: the *bare extension* (`filename.rsplit('.', 1)[-1].lower()`)
is passed to `_get_file_type`, which expects a dotted filename.  The
result is the updated metadata view together with the previous
`unlock_date`. -/
def update_capsule (bc : BlockCipher) (iv : List Nat) (put : PutFn) (st : Stores)
    (s : SysState) (cid user_id : String) (description : Option String)
    (unlock_date : Option Nat) (file_data : Option (List Nat))
    (filename : Option String) :
    Except String (CapsuleDoc × Nat) × Stores × SysState :=
  match find_one s.capsules cid with
  | none => (.error "Capsule not found", st, s)
  | some doc =>
    if doc.user_id ≠ user_id then (.error "Capsule not found", st, s)
    else if doc.is_unlocked then (.error "Cannot update unlocked capsule", st, s)
    else
      match file_data with
      | some fd =>
        if filename_not_allowed filename then (.error "File type not allowed", st, s)
        else
          let st1 := (delete_file st
            { storage_type := doc.storage_type, public_id := doc.cloudinary_public_id,
              gridfs_id := none }).2
          let enc := encrypt_data bc iv fd
          let newType :=
            match filename with
            | some fn =>
              get_file_type (if hasDot fn then lowerStr (extAfterLastDot fn) else "")
            | none => doc.capsule_type
          match store_file put st1 (b64decode enc.encrypted_data) cid with
          | (.error e, st2) => (.error e, st2, s)
          | (.ok info, st2) =>
            let newDoc : CapsuleDoc :=
              { doc with
                description := match description with
                  | some d2 => some d2
                  | none => doc.description,
                unlock_date := unlock_date.getD doc.unlock_date,
                cloudinary_public_id := some info.public_id,
                cloudinary_url := some info.secure_url,
                gridfs_id := none, storage_type := "cloudinary",
                encryption_iv := enc.iv, original_size := fd.length,
                filename := match filename with
                  | some fn => fn
                  | none => doc.filename,
                capsule_type := match filename with
                  | some _ => newType
                  | none => doc.capsule_type }
            let s2 : SysState := { s with capsules := replace_doc s.capsules cid newDoc }
            match get_capsule_metadata s2 cid with
            | .error e => (.error e, st2, s2)
            | .ok view => (.ok (view, doc.unlock_date), st2, s2)
      | none =>
        if description = none ∧ unlock_date = none then
          (.error "No update data provided", st, s)
        else
          let newDoc : CapsuleDoc :=
            { doc with
              description := match description with
                | some d2 => some d2
                | none => doc.description,
              unlock_date := unlock_date.getD doc.unlock_date }
          let s2 : SysState := { s with capsules := replace_doc s.capsules cid newDoc }
          match get_capsule_metadata s2 cid with
          | .error e => (.error e, st, s2)
          | .ok view => (.ok (view, doc.unlock_date), st, s2)

/-! ## C6: file-capsule update scenario -/

/-- A 10-byte png payload. -/
def png10 : List Nat := [1, 2, 3, 4, 5, 6, 7, 8, 9, 10]

/-- A 20-byte jpg payload. -/
def jpg20 : List Nat :=
  [11, 12, 13, 14, 15, 16, 17, 18, 19, 20, 21, 22, 23, 24, 25, 26, 27, 28, 29, 30]

/-- A second IV for the replacement encryption. -/
def ivB : List Nat := List.replicate 16 2

/-- Create a capsule `c6` with the 10-byte `a.png` payload. -/
def c6AfterCreate : Except String CreateResult × Stores × SysState :=
  create_capsule revCipher zeroIV "c6" 6 goodPut sampleStores sampleState
    "u1" 50 none (some "r1") (some png10) (some "a.png") none

/-- Update capsule `c6`, replacing the payload with the 20-byte `b.jpg`. -/
def c6AfterUpdate : Except String (CapsuleDoc × Nat) × Stores × SysState :=
  update_capsule revCipher ivB goodPut c6AfterCreate.2.1 c6AfterCreate.2.2
    "c6" "u1" none none (some jpg20) (some "b.jpg")

/-- The decrypted payload an unlock call hands back (text capsules
return the bytes, binary capsules their base64). -/
def unlockPayload : Except String UnlockResult × SysState → Option (List Nat)
  | (.ok r, _) => some (if r.capsule_type = "text" then r.data else b64decode r.data)
  | (.error _, _) => none

/-- C6.  Evaluating the code on the scenario of the claim: after
creating with a 10-byte `.png` and updating with a 20-byte `.jpg`, the
metadata shows `payload_size = 20` and the unlock-path decryption
yields the new 20 bytes — but `content_kind` is `"other"`, not the
`"image"` the claim states: `update_capsule` passes the bare extension
`"jpg"` to `_get_file_type`, which expects a dotted filename (the last
conjunct shows the full filename would have mapped to `"image"`, as the
create path and the unit tests establish). -/
theorem update_jpg_yields_type_other :
    (find_one c6AfterCreate.2.2.capsules "c6").map
      (fun d => (d.capsule_type, d.original_size)) = some ("image", 10) ∧
    (match c6AfterUpdate.1 with
      | .ok (view, old) => some (view.capsule_type, view.original_size, view.filename, old)
      | .error _ => none) = some ("other", 20, "b.jpg", 50) ∧
    unlockPayload (unlock_capsule revCipher c6AfterUpdate.2.1 c6AfterUpdate.2.2 "c6") =
      some jpg20 ∧
    get_file_type "b.jpg" = "image" := by
  refine ⟨by decide, by decide, by decide, by decide⟩

/-! ## Scheduler sweep and in-app notifications
(services/scheduler_service.py) -/

/-- A document of the `notifications` collection. -/
structure Notification where
  user_id : String
  type : String
  capsule_id : String
  sender_id : Option String
  created_at : Nat
  read : Bool
  message : String
deriving Repr, DecidableEq

/-- Embedding of `SchedulerService._create_notification`: when the
capsule has no registered recipient the code substitutes the *sender*
as the notification target with the message
`Your capsule is now available`; only when both are absent is nothing
inserted.  The `doc` argument is passed (as in the source) but unused. -/
def create_notification (notifs : List Notification) (doc : CapsuleDoc) (capsule_id : String)
    (recipient_id sender_id : Option String) (now : Nat) : List Notification :=
  let pair : String × Option String :=
    match recipient_id with
    | some r => ("You received a capsule released today", some r)
    | none => ("Your capsule is now available", sender_id)
  match pair.2 with
  | some r =>
    notifs ++ [{ user_id := r, type := "capsule_release", capsule_id := capsule_id,
                 sender_id := sender_id, created_at := now, read := false,
                 message := pair.1 }]
  | none => notifs

/-- Embedding of the e-mail targeting of
`SchedulerService._send_unlock_email`: the external `recipient_email`
takes priority; otherwise the registered recipient address is looked
up.  Returns the address the message goes to, if any. -/
def send_unlock_email (users : List UserDoc) (recipient_id recipient_email : Option String) :
    Option String :=
  match recipient_email with
  | some e => some e
  | none =>
    match recipient_id with
    | some rid =>
      match find_user users rid with
      | some u => u.email
      | none => none
    | none => none

/-- Outcome of one scheduler sweep. -/
structure SweepResult where
  state : SysState
  notifications : List Notification
  emails : List String
  found : Nat
  unlocked : Nat
  emailed : Nat
deriving Repr, DecidableEq

/-- Embedding of `SchedulerService.check_and_unlock_capsules`: query
the due-set (`is_unlocked = False` and `unlock_date <= now`), then per
document unlock, create the in-app notification and send the e-mail;
a failing record is skipped without aborting the sweep. -/
def check_and_unlock_capsules (bc : BlockCipher) (st : Stores) (users : List UserDoc)
    (notifs : List Notification) (s : SysState) : SweepResult :=
  let due := s.capsules.filter (fun d => !d.is_unlocked && decide (d.unlock_date ≤ s.now))
  due.foldl
    (fun acc doc =>
      match unlock_capsule bc st acc.state doc.capsule_id with
      | (.error _, s2) => { acc with state := s2 }
      | (.ok _, s2) =>
        let notifs2 := create_notification acc.notifications doc doc.capsule_id
          doc.recipient_id (some doc.sender_id) s2.now
        let target := send_unlock_email users doc.recipient_id doc.recipient_email
        { state := s2, notifications := notifs2,
          emails := acc.emails ++ (match target with | some e => [e] | none => []),
          found := acc.found, unlocked := acc.unlocked + 1,
          emailed := acc.emailed + (match target with | some _ => 1 | none => 0) })
    { state := s, notifications := notifs, emails := [], found := due.length,
      unlocked := 0, emailed := 0 }

/-- The sample capsule re-addressed to an unregistered, e-mail-only
recipient. -/
def extDoc : CapsuleDoc :=
  { sampleDoc with recipient_id := none, recipient_email := some "r@example.com" }

/-- Due state holding only the external-recipient capsule. -/
def extState : SysState := { capsules := [extDoc], now := 100 }

/-- C7 counterexample.  Sweeping the due external-recipient capsule
does produce an in-app notification — addressed to the *sender* with
message `Your capsule is now available` — alongside the e-mail to the
external address, refuting `no in-app notification at all`. -/
theorem sweep_notifies_sender_for_external_recipient :
    (check_and_unlock_capsules revCipher sampleStores [] [] extState).notifications.map
      (fun n => (n.user_id, n.message)) = [("u1", "Your capsule is now available")] ∧
    (check_and_unlock_capsules revCipher sampleStores [] [] extState).emails =
      ["r@example.com"] ∧
    (check_and_unlock_capsules revCipher sampleStores [] [] extState).unlocked = 1 := by
  refine ⟨by decide, by decide, by decide⟩

/-- C7 amended.  The in-app notification goes to the registered
recipient when `recipient_id` is set; when the recipient is
unregistered a notification is still created but addressed to the
sender (`Your capsule is now available`); only when recipient and
sender are both absent is nothing inserted. -/
theorem create_notification_targets (notifs : List Notification) (doc : CapsuleDoc)
    (cid : String) (sid : Option String) (now : Nat) :
    (∀ r, create_notification notifs doc cid (some r) sid now =
      notifs ++ [{ user_id := r, type := "capsule_release", capsule_id := cid,
                   sender_id := sid, created_at := now, read := false,
                   message := "You received a capsule released today" }]) ∧
    (∀ s2, create_notification notifs doc cid none (some s2) now =
      notifs ++ [{ user_id := s2, type := "capsule_release", capsule_id := cid,
                   sender_id := some s2, created_at := now, read := false,
                   message := "Your capsule is now available" }]) ∧
    create_notification notifs doc cid none none now = notifs := by
  refine ⟨fun r => rfl, fun s2 => ?_, rfl⟩
  rfl
